import Mathlib

/-!
# Verification of the httpclient request-retry-and-authentication core

Shallow embedding of the retry/authentication state machine
(`HttpClient._invokeWithRetries`), the response/result model
(`ApiResponse` / `ApiResult`), the retry delay policy
(`_calculateRetryDelay`), the authentication strategies
(`BasicAuthClient`, `DelegateBearerAuthClient`, `OAuthClient`) and the
JSON string-transform processors (`StringTransformJsonProcessor`,
`IsoDateProcessor`), with theorems settling the frozen claims about them.

Conventions of the embedding:
* JS numbers that the code only ever uses as integers (status codes,
  delays, attempt counters) are `Nat` / `Int`.
* Thrown JS errors are values of the inductive `Err`; fallible code
  returns `Except Err _`.
* A JS header object is a finite partial map, embedded as
  `String → Option String`; object spread (`{...a, ...b}`) is
  `mergeHeaders a b` (keys of `b` win).
* The axios transport is an oracle: each physical call consumes the next
  element of a supply `Nat → TransportOutcome`.  `validateStatus`
  (`status >= 200`) is part of `httpRequest`, as configured in
  `_setInstance`.
* Promise-valued fields that the code caches (`this.token`) are embedded
  as the settled outcome of the promise, `Option (Except Err String)`.
-/

namespace HttpclientSpec

/-- Errors that can be thrown inside the client: environment-supplied
errors (transport exceptions, auth fetch failures, processor failures,
validation failures) are `ext n`; `axiosStatus s` is the axios rejection
produced when `validateStatus` refuses a status `s < 200`;
`noAccessToken` and `tokenFetchFailed` are the two `Error`s thrown by
`OAuthClient.refreshTokenImpl`. -/
inductive Err where
  | ext (n : Nat)
  | axiosStatus (status : Nat)
  | noAccessToken
  | tokenFetchFailed (status : Nat)
deriving DecidableEq, Repr

/-- A JSON-compatible value as the processors see it: the six JSON shapes
plus `date` for a JS `Date` produced by the ISO-date processors
(`some ms` = epoch milliseconds, `none` = an Invalid Date). -/
inductive Json where
  | null
  | bool (b : Bool)
  | num (n : Int)
  | str (s : String)
  | date (ms : Option Int)
  | arr (elems : List Json)
  | obj (fields : List (String × Json))
deriving BEq

/-- The part of an axios response the client reads: `status` and `data`. -/
structure AxiosResponse where
  status : Nat
  data : Json

/-- `ApiResponse`: transport response (absent when the transport never
returned), captured error, and the attempt counter. -/
structure ApiResponse where
  response : Option AxiosResponse
  error : Option Err
  attempts : Nat

/-- `ApiResponse.status` getter: `this.response ? this.response.status : -1`. -/
def ApiResponse.status (r : ApiResponse) : Int :=
  match r.response with
  | some res => (res.status : Int)
  | none => -1

/-- `ApiResponse.success` getter: `s > 199 && s < 300 && this.error === undefined`. -/
def ApiResponse.success (r : ApiResponse) : Prop :=
  199 < r.status ∧ r.status < 300 ∧ r.error = none

instance (r : ApiResponse) : Decidable r.success := by
  unfold ApiResponse.success; infer_instance

/-- `ApiResponse.is4xx` getter: `s > 399 && s < 500 && s !== 401`. -/
def ApiResponse.is4xx (r : ApiResponse) : Prop :=
  399 < r.status ∧ r.status < 500 ∧ r.status ≠ 401

instance (r : ApiResponse) : Decidable r.is4xx := by
  unfold ApiResponse.is4xx; infer_instance

/-- `ApiResponse.forbidden` getter: `this.response && this.response.status === 403`
(the JS value is falsy when `response` is absent). -/
def ApiResponse.forbidden (r : ApiResponse) : Prop :=
  match r.response with
  | some res => res.status = 403
  | none => False

instance (r : ApiResponse) : Decidable r.forbidden := by
  unfold ApiResponse.forbidden
  cases r.response <;> infer_instance

/-- `ApiResponse.notFound` getter: `this.response && this.response.status === 404`. -/
def ApiResponse.notFound (r : ApiResponse) : Prop :=
  match r.response with
  | some res => res.status = 404
  | none => False

instance (r : ApiResponse) : Decidable r.notFound := by
  unfold ApiResponse.notFound
  cases r.response <;> infer_instance

/-- A JS header object: finite string-keyed map. -/
abbrev HeaderMap := String → Option String

/-- JS object spread `{...base, ...overlay}` restricted to lookups:
keys of `overlay` win. -/
def mergeHeaders (base overlay : HeaderMap) : HeaderMap :=
  fun k => match overlay k with
    | some v => some v
    | none => base k

/-- The empty header object. -/
def emptyHeaders : HeaderMap := fun _ => none

/-- `RetryStrategy` enum. -/
inductive RetryStrategy where
  | constant
  | linear
  | exponential
deriving DecidableEq, Repr

/-- `HttpClientOptions` (after the constructor merged defaults): the
fields the retry state machine reads.  `timeout` only parameterizes the
transport oracle and is not re-read by the state machine, so it is
omitted; `authClient` lives in `Env` because it carries mutable state. -/
structure HttpClientOptions where
  maxAttempts : Nat
  retryDelay : Nat
  retryStrategy : RetryStrategy
  customHeaders : HeaderMap

/-- `_calculateRetryDelay`: `switch` over the strategy; the `default`
arm (reached exactly by `Exponential` for this enum) is
`baseDelay * attempts ** 2`. -/
def calculateRetryDelay (opts : HttpClientOptions) (attempts : Nat) : Nat :=
  match opts.retryStrategy with
  | .constant => opts.retryDelay
  | .linear => opts.retryDelay * attempts
  | .exponential => opts.retryDelay * attempts ^ 2

/-- What one physical transport call does: resolve with a response, or
reject with an exception (timeout, DNS failure, connection refusal). -/
inductive TransportOutcome where
  | resp (r : AxiosResponse)
  | exn (e : Err)

/-- `this.client.request(request)` including the configured
`validateStatus: (status) => status >= 200`: a resolved response whose
status fails validation rejects. -/
def httpRequest : TransportOutcome → Except Err AxiosResponse
  | .resp r => if 200 ≤ r.status then .ok r else .error (.axiosStatus r.status)
  | .exn e => .error e

/-- `IAuthClient` as the orchestrator consumes it, over a strategy state
`σ`: `getAuthHeader` may lazily fetch (hence may change the state and
may throw); `refreshToken` forces a fetch.  A JS `undefined` header is
the empty map (spreading it is a no-op). -/
structure AuthClient (σ : Type) where
  getAuthHeader : σ → Except Err (HeaderMap × σ)
  refreshToken : σ → Except Err σ

/-- The environment of one logical call: the transport oracle (indexed
by the number of physical calls already made), the optional auth
strategy, and the outbound processor chain. -/
structure Env (σ : Type) where
  transport : Nat → TransportOutcome
  authClient : Option (AuthClient σ)
  outboundProcessors : List (Json → Except Err Json)

/-- Observable events of one logical call: each physical call (with its
attempt number, the effective request headers, and the transport
outcome), each `refreshToken()` invocation, and each backoff sleep. -/
inductive Event where
  | call (attempt : Nat) (headers : HeaderMap) (outcome : TransportOutcome)
  | refresh
  | delay (ms : Nat)

/-- Is the event a physical call? -/
def isCallEvent : Event → Bool
  | .call .. => true
  | _ => false

/-- Number of physical calls in a trace. -/
def physCount (evs : List Event) : Nat := evs.countP isCallEvent

/-- Is the event a `refreshToken()` invocation? -/
def isRefreshEvent : Event → Bool
  | .refresh => true
  | _ => false

/-- Number of `refreshToken()` invocations in a trace. -/
def refreshCount (evs : List Event) : Nat := evs.countP isRefreshEvent

/-- JS truthiness of a JSON value (`if (data)`). -/
def jsTruthy : Json → Bool
  | .null => false
  | .bool b => b
  | .num n => n != 0
  | .str s => s != ""
  | .date _ => true
  | .arr _ => true
  | .obj _ => true

/-- `outboundProcessors.forEach((p) => (processedData = p.processJson(processedData)))`
with a thrown processor error escaping to the caller. -/
def runProcs (procs : List (Json → Except Err Json)) (d : Json) : Except Err Json :=
  procs.foldl (fun acc p => acc >>= p) (Except.ok d)

/-- `let body = null; if (data) { ...run processors...; body = processedData; }` -/
def processOutbound (procs : List (Json → Except Err Json)) (data : Option Json) :
    Except Err (Option Json) :=
  match data with
  | some d => if jsTruthy d then (runProcs procs d).map some else .ok none
  | none => .ok none

/-- The auth-header step of one attempt:
`if (this.options.authClient) { const authHeader = await ...getAuthHeader(); headers = {...headers, ...authHeader}; }`. -/
def authHeaderStep (env : Env σ) (headers : HeaderMap) (st : σ) :
    Except Err (HeaderMap × σ) :=
  match env.authClient with
  | some ac =>
    match ac.getAuthHeader st with
    | .error e => .error e
    | .ok (ah, st1) => .ok (mergeHeaders headers ah, st1)
  | none => .ok (headers, st)

/-- `HttpClient._invokeWithRetries`, returning the `ApiResponse` plus the
trace of observable events from this attempt on.  The whole body is one
`try` block whose `catch` returns `new ApiResponse(undefined, error,
attemptCounter)`; the terminal test, the privileged-401 refresh and the
delayed recursion mirror the source line for line.  `method`, `uri` and
the transformed body are passed to the transport oracle only, which this
embedding indexes by the physical-call counter `callIdx` instead. -/
def invokeWithRetries (opts : HttpClientOptions) (env : Env σ)
    (data : Option Json) (headers : HeaderMap)
    (attemptCounter : Nat) (authSt : σ) (callIdx : Nat) :
    ApiResponse × List Event :=
  match authHeaderStep env headers authSt with
  | .error e => (⟨none, some e, attemptCounter⟩, [])
  | .ok (headers1, st1) =>
    match processOutbound env.outboundProcessors data with
    | .error e => (⟨none, some e, attemptCounter⟩, [])
    | .ok _body =>
      let outcome := env.transport callIdx
      let callEv := Event.call attemptCounter (mergeHeaders opts.customHeaders headers1) outcome
      match httpRequest outcome with
      | .error e => (⟨none, some e, attemptCounter⟩, [callEv])
      | .ok res =>
        if hterm : (200 ≤ res.status ∧ res.status < 300) ∨
            opts.maxAttempts ≤ attemptCounter ∨
            (res.status < 500 ∧ res.status ≠ 401) then
          (⟨some res, none, attemptCounter⟩, [callEv])
        else
          match env.authClient with
          | some ac =>
            if res.status = 401 ∧ attemptCounter = 1 then
              match ac.refreshToken st1 with
              | .error e => (⟨none, some e, attemptCounter⟩, [callEv, .refresh])
              | .ok st2 =>
                let rec1 := invokeWithRetries opts env data headers1
                  (attemptCounter + 1) st2 (callIdx + 1)
                (rec1.1, callEv :: .refresh :: rec1.2)
            else
              let d := calculateRetryDelay opts attemptCounter
              let rec1 := invokeWithRetries opts env data headers1
                (attemptCounter + 1) st1 (callIdx + 1)
              (rec1.1, callEv :: .delay d :: rec1.2)
          | none =>
            let d := calculateRetryDelay opts attemptCounter
            let rec1 := invokeWithRetries opts env data headers1
              (attemptCounter + 1) st1 (callIdx + 1)
            (rec1.1, callEv :: .delay d :: rec1.2)
termination_by opts.maxAttempts - attemptCounter
decreasing_by all_goals (push_neg at hterm; omega)

/-- `HttpClient._invoke`: start the state machine at attempt 1. -/
def invoke (opts : HttpClientOptions) (env : Env σ) (data : Option Json)
    (headers : HeaderMap) (authSt : σ) : ApiResponse × List Event :=
  invokeWithRetries opts env data headers 1 authSt 0

/-! ## Step lemmas: one unfolding of the state machine per branch -/

theorem invokeWithRetries_authFail (opts : HttpClientOptions) (env : Env σ)
    (data : Option Json) (hs : HeaderMap) (a : Nat) (st : σ) (ci : Nat) (e : Err)
    (h1 : authHeaderStep env hs st = .error e) :
    invokeWithRetries opts env data hs a st ci = (⟨none, some e, a⟩, []) := by
  unfold invokeWithRetries
  rw [h1]

theorem invokeWithRetries_procFail (opts : HttpClientOptions) (env : Env σ)
    (data : Option Json) (hs : HeaderMap) (a : Nat) (st : σ) (ci : Nat)
    (hdrs : HeaderMap) (st1 : σ) (e : Err)
    (h1 : authHeaderStep env hs st = .ok (hdrs, st1))
    (h2 : processOutbound env.outboundProcessors data = .error e) :
    invokeWithRetries opts env data hs a st ci = (⟨none, some e, a⟩, []) := by
  unfold invokeWithRetries
  rw [h1, h2]

theorem invokeWithRetries_reqFail (opts : HttpClientOptions) (env : Env σ)
    (data : Option Json) (hs : HeaderMap) (a : Nat) (st : σ) (ci : Nat)
    (hdrs : HeaderMap) (st1 : σ) (b : Option Json) (e : Err)
    (h1 : authHeaderStep env hs st = .ok (hdrs, st1))
    (h2 : processOutbound env.outboundProcessors data = .ok b)
    (h3 : httpRequest (env.transport ci) = .error e) :
    invokeWithRetries opts env data hs a st ci =
      (⟨none, some e, a⟩,
       [.call a (mergeHeaders opts.customHeaders hdrs) (env.transport ci)]) := by
  unfold invokeWithRetries
  rw [h1, h2]
  simp only [h3]

theorem invokeWithRetries_terminal (opts : HttpClientOptions) (env : Env σ)
    (data : Option Json) (hs : HeaderMap) (a : Nat) (st : σ) (ci : Nat)
    (hdrs : HeaderMap) (st1 : σ) (b : Option Json) (res : AxiosResponse)
    (h1 : authHeaderStep env hs st = .ok (hdrs, st1))
    (h2 : processOutbound env.outboundProcessors data = .ok b)
    (h3 : httpRequest (env.transport ci) = .ok res)
    (hc : (200 ≤ res.status ∧ res.status < 300) ∨
      opts.maxAttempts ≤ a ∨ (res.status < 500 ∧ res.status ≠ 401)) :
    invokeWithRetries opts env data hs a st ci =
      (⟨some res, none, a⟩,
       [.call a (mergeHeaders opts.customHeaders hdrs) (env.transport ci)]) := by
  unfold invokeWithRetries
  rw [h1, h2]
  simp only [h3, dif_pos hc]

theorem invokeWithRetries_refreshFail (opts : HttpClientOptions) (env : Env σ)
    (data : Option Json) (hs : HeaderMap) (a : Nat) (st : σ) (ci : Nat)
    (hdrs : HeaderMap) (st1 : σ) (b : Option Json) (res : AxiosResponse)
    (ac : AuthClient σ) (e : Err)
    (h1 : authHeaderStep env hs st = .ok (hdrs, st1))
    (h2 : processOutbound env.outboundProcessors data = .ok b)
    (h3 : httpRequest (env.transport ci) = .ok res)
    (hc : ¬((200 ≤ res.status ∧ res.status < 300) ∨
      opts.maxAttempts ≤ a ∨ (res.status < 500 ∧ res.status ≠ 401)))
    (hac : env.authClient = some ac)
    (h401 : res.status = 401 ∧ a = 1)
    (hrf : ac.refreshToken st1 = .error e) :
    invokeWithRetries opts env data hs a st ci =
      (⟨none, some e, a⟩,
       [.call a (mergeHeaders opts.customHeaders hdrs) (env.transport ci), .refresh]) := by
  unfold invokeWithRetries
  rw [h1, h2]
  simp only [h3, dif_neg hc, hac, if_pos h401, hrf]

theorem invokeWithRetries_refreshOk (opts : HttpClientOptions) (env : Env σ)
    (data : Option Json) (hs : HeaderMap) (a : Nat) (st : σ) (ci : Nat)
    (hdrs : HeaderMap) (st1 : σ) (b : Option Json) (res : AxiosResponse)
    (ac : AuthClient σ) (st2 : σ)
    (h1 : authHeaderStep env hs st = .ok (hdrs, st1))
    (h2 : processOutbound env.outboundProcessors data = .ok b)
    (h3 : httpRequest (env.transport ci) = .ok res)
    (hc : ¬((200 ≤ res.status ∧ res.status < 300) ∨
      opts.maxAttempts ≤ a ∨ (res.status < 500 ∧ res.status ≠ 401)))
    (hac : env.authClient = some ac)
    (h401 : res.status = 401 ∧ a = 1)
    (hrf : ac.refreshToken st1 = .ok st2) :
    invokeWithRetries opts env data hs a st ci =
      ((invokeWithRetries opts env data hdrs (a + 1) st2 (ci + 1)).1,
       .call a (mergeHeaders opts.customHeaders hdrs) (env.transport ci) :: .refresh ::
         (invokeWithRetries opts env data hdrs (a + 1) st2 (ci + 1)).2) := by
  conv_lhs => unfold invokeWithRetries
  rw [h1, h2]
  simp only [h3, dif_neg hc, hac, if_pos h401, hrf]

theorem invokeWithRetries_delayAuth (opts : HttpClientOptions) (env : Env σ)
    (data : Option Json) (hs : HeaderMap) (a : Nat) (st : σ) (ci : Nat)
    (hdrs : HeaderMap) (st1 : σ) (b : Option Json) (res : AxiosResponse)
    (ac : AuthClient σ)
    (h1 : authHeaderStep env hs st = .ok (hdrs, st1))
    (h2 : processOutbound env.outboundProcessors data = .ok b)
    (h3 : httpRequest (env.transport ci) = .ok res)
    (hc : ¬((200 ≤ res.status ∧ res.status < 300) ∨
      opts.maxAttempts ≤ a ∨ (res.status < 500 ∧ res.status ≠ 401)))
    (hac : env.authClient = some ac)
    (h401 : ¬(res.status = 401 ∧ a = 1)) :
    invokeWithRetries opts env data hs a st ci =
      ((invokeWithRetries opts env data hdrs (a + 1) st1 (ci + 1)).1,
       .call a (mergeHeaders opts.customHeaders hdrs) (env.transport ci) ::
         .delay (calculateRetryDelay opts a) ::
         (invokeWithRetries opts env data hdrs (a + 1) st1 (ci + 1)).2) := by
  conv_lhs => unfold invokeWithRetries
  rw [h1, h2]
  simp only [h3, dif_neg hc, hac, if_neg h401]

theorem invokeWithRetries_delayNoAuth (opts : HttpClientOptions) (env : Env σ)
    (data : Option Json) (hs : HeaderMap) (a : Nat) (st : σ) (ci : Nat)
    (hdrs : HeaderMap) (st1 : σ) (b : Option Json) (res : AxiosResponse)
    (h1 : authHeaderStep env hs st = .ok (hdrs, st1))
    (h2 : processOutbound env.outboundProcessors data = .ok b)
    (h3 : httpRequest (env.transport ci) = .ok res)
    (hc : ¬((200 ≤ res.status ∧ res.status < 300) ∨
      opts.maxAttempts ≤ a ∨ (res.status < 500 ∧ res.status ≠ 401)))
    (hac : env.authClient = none) :
    invokeWithRetries opts env data hs a st ci =
      ((invokeWithRetries opts env data hdrs (a + 1) st1 (ci + 1)).1,
       .call a (mergeHeaders opts.customHeaders hdrs) (env.transport ci) ::
         .delay (calculateRetryDelay opts a) ::
         (invokeWithRetries opts env data hdrs (a + 1) st1 (ci + 1)).2) := by
  conv_lhs => unfold invokeWithRetries
  rw [h1, h2]
  simp only [h3, dif_neg hc, hac]

/-! ## Auxiliary counting lemmas -/

/-- `refreshToken()` is only ever invoked at attempt counter 1, so a run
entered at attempt counter `≥ 2` performs no refresh at all. -/
theorem refreshCount_zero (opts : HttpClientOptions) (env : Env σ) (data : Option Json) :
    ∀ n a hs st ci, opts.maxAttempts - a ≤ n → 2 ≤ a →
      refreshCount (invokeWithRetries opts env data hs a st ci).2 = 0 := by
  intro n
  induction n with
  | zero =>
    intro a hs st ci hn ha
    cases h1 : authHeaderStep env hs st with
    | error e =>
      rw [invokeWithRetries_authFail _ _ _ _ _ _ _ _ h1]
      rfl
    | ok p =>
      obtain ⟨hdrs, st1⟩ := p
      cases h2 : processOutbound env.outboundProcessors data with
      | error e =>
        rw [invokeWithRetries_procFail _ _ _ _ _ _ _ _ _ _ h1 h2]
        rfl
      | ok b =>
        cases h3 : httpRequest (env.transport ci) with
        | error e =>
          rw [invokeWithRetries_reqFail _ _ _ _ _ _ _ _ _ _ _ h1 h2 h3]
          rfl
        | ok res =>
          have hc : (200 ≤ res.status ∧ res.status < 300) ∨
              opts.maxAttempts ≤ a ∨ (res.status < 500 ∧ res.status ≠ 401) :=
            Or.inr (Or.inl (by omega))
          rw [invokeWithRetries_terminal _ _ _ _ _ _ _ _ _ _ _ h1 h2 h3 hc]
          rfl
  | succ n ih =>
    intro a hs st ci hn ha
    cases h1 : authHeaderStep env hs st with
    | error e =>
      rw [invokeWithRetries_authFail _ _ _ _ _ _ _ _ h1]
      rfl
    | ok p =>
      obtain ⟨hdrs, st1⟩ := p
      cases h2 : processOutbound env.outboundProcessors data with
      | error e =>
        rw [invokeWithRetries_procFail _ _ _ _ _ _ _ _ _ _ h1 h2]
        rfl
      | ok b =>
        cases h3 : httpRequest (env.transport ci) with
        | error e =>
          rw [invokeWithRetries_reqFail _ _ _ _ _ _ _ _ _ _ _ h1 h2 h3]
          rfl
        | ok res =>
          by_cases hc : (200 ≤ res.status ∧ res.status < 300) ∨
              opts.maxAttempts ≤ a ∨ (res.status < 500 ∧ res.status ≠ 401)
          · rw [invokeWithRetries_terminal _ _ _ _ _ _ _ _ _ _ _ h1 h2 h3 hc]
            rfl
          · cases hac : env.authClient with
            | some ac =>
              have h401 : ¬(res.status = 401 ∧ a = 1) := by omega
              rw [invokeWithRetries_delayAuth _ _ _ _ _ _ _ _ _ _ _ _ h1 h2 h3 hc hac h401]
              have hrec := ih (a + 1) hdrs st1 (ci + 1) (by omega) (by omega)
              simp [refreshCount, List.countP_cons, isRefreshEvent] at hrec ⊢
              exact hrec
            | none =>
              rw [invokeWithRetries_delayNoAuth _ _ _ _ _ _ _ _ _ _ _ h1 h2 h3 hc hac]
              have hrec := ih (a + 1) hdrs st1 (ci + 1) (by omega) (by omega)
              simp [refreshCount, List.countP_cons, isRefreshEvent] at hrec ⊢
              exact hrec

/-! ## C7: retry delay policy -/

/-- **C7**: the retry delay is a pure function of the attempt number and
the base delay: `Constant` yields the base at every attempt, `Linear`
yields `base * attempt`, `Exponential` yields `base * attempt ^ 2`; in
particular `Constant(5000)` gives 5000 at attempts 1, 2, 3,
`Linear(2000)` gives 2000, 4000, 6000 and `Exponential(1000)` gives
1000, 4000, 9000. -/
theorem c7_retry_delay_policy :
    (∀ mx base ch a, calculateRetryDelay ⟨mx, base, .constant, ch⟩ a = base) ∧
    (∀ mx base ch a, calculateRetryDelay ⟨mx, base, .linear, ch⟩ a = base * a) ∧
    (∀ mx base ch a, calculateRetryDelay ⟨mx, base, .exponential, ch⟩ a = base * a ^ 2) ∧
    (∀ a, calculateRetryDelay ⟨3, 5000, .constant, emptyHeaders⟩ a = 5000) ∧
    (calculateRetryDelay ⟨3, 2000, .linear, emptyHeaders⟩ 1 = 2000 ∧
     calculateRetryDelay ⟨3, 2000, .linear, emptyHeaders⟩ 2 = 4000 ∧
     calculateRetryDelay ⟨3, 2000, .linear, emptyHeaders⟩ 3 = 6000) ∧
    (calculateRetryDelay ⟨3, 1000, .exponential, emptyHeaders⟩ 1 = 1000 ∧
     calculateRetryDelay ⟨3, 1000, .exponential, emptyHeaders⟩ 2 = 4000 ∧
     calculateRetryDelay ⟨3, 1000, .exponential, emptyHeaders⟩ 3 = 9000) := by
  refine ⟨fun _ _ _ _ => rfl, fun _ _ _ _ => rfl, fun _ _ _ _ => rfl,
    fun _ => rfl, ⟨rfl, rfl, rfl⟩, ⟨by norm_num [calculateRetryDelay],
    by norm_num [calculateRetryDelay], by norm_num [calculateRetryDelay]⟩⟩

/-! ## C8: the client-error predicate -/

/-- **C8 counterexample**: at status 400 the code's `is4xx` is true, yet
400 does not lie in the open interval (400,500) the claim names, so the
claim's characterization fails at this input. -/
theorem c8_counterexample :
    (ApiResponse.mk (some ⟨400, .null⟩) none 1).is4xx ∧
    ¬(400 < (ApiResponse.mk (some ⟨400, .null⟩) none 1).status) := by
  decide

/-- **C8 amended**: `is4xx` is true exactly when a status code is
present, lies in the half-open interval [400,500) — i.e. `400 ≤ s < 500`
— and is not 401; it is false in every other case, including when no
status code was obtained. -/
theorem c8_amended (r : ApiResponse) :
    r.is4xx ↔ r.response.isSome = true ∧ 400 ≤ r.status ∧ r.status < 500 ∧ r.status ≠ 401 := by
  unfold ApiResponse.is4xx ApiResponse.status
  cases r.response <;> simp <;> omega

/-! ## C10: predicates on a transport-failure response -/

/-- **C10**: when no transport response is present the `status` getter
evaluates totally to the sentinel -1, and `success`, `is4xx`,
`forbidden` and `notFound` are all false, regardless of the captured
error value. -/
theorem c10_transport_failure_predicates (r : ApiResponse) (h : r.response = none) :
    r.status = -1 ∧ ¬r.success ∧ ¬r.is4xx ∧ ¬r.forbidden ∧ ¬r.notFound := by
  simp only [ApiResponse.status, ApiResponse.success, ApiResponse.is4xx,
    ApiResponse.forbidden, ApiResponse.notFound, h]
  norm_num

/-- Witness for C10 at a concrete transport-failure response. -/
theorem c10_witness :
    (ApiResponse.mk none (some (.ext 3)) 1).status = -1 ∧
    ¬(ApiResponse.mk none (some (.ext 3)) 1).success ∧
    ¬(ApiResponse.mk none (some (.ext 3)) 1).is4xx ∧
    ¬(ApiResponse.mk none (some (.ext 3)) 1).forbidden ∧
    ¬(ApiResponse.mk none (some (.ext 3)) 1).notFound :=
  c10_transport_failure_predicates ⟨none, some (.ext 3), 1⟩ rfl

/-! ## C3: non-401 redirects and client errors are terminal -/

/-- **C3**: a response with status in [300,500) other than 401 is
terminal on the attempt that received it: the state machine returns it
at once with no retry — the trace from this attempt on is a single
physical call — the attempt counter is unchanged, and a 404 makes
`notFound` true. -/
theorem c3_client_errors_terminal (opts : HttpClientOptions) (env : Env σ)
    (data : Option Json) (hs : HeaderMap) (a : Nat) (st : σ) (ci : Nat)
    (hdrs : HeaderMap) (st1 : σ) (b : Option Json) (r : AxiosResponse)
    (h1 : authHeaderStep env hs st = .ok (hdrs, st1))
    (h2 : processOutbound env.outboundProcessors data = .ok b)
    (h3 : env.transport ci = .resp r)
    (hlo : 300 ≤ r.status) (hhi : r.status < 500) (hne : r.status ≠ 401) :
    invokeWithRetries opts env data hs a st ci =
      (⟨some r, none, a⟩, [.call a (mergeHeaders opts.customHeaders hdrs) (.resp r)]) ∧
    physCount (invokeWithRetries opts env data hs a st ci).2 = 1 ∧
    (invokeWithRetries opts env data hs a st ci).1.attempts = a ∧
    (r.status = 404 → (invokeWithRetries opts env data hs a st ci).1.notFound) := by
  have hreq : httpRequest (env.transport ci) = .ok r := by
    have h200 : 200 ≤ r.status := by omega
    rw [h3]; simp [httpRequest, h200]
  have hmain := invokeWithRetries_terminal opts env data hs a st ci hdrs st1 b r
    h1 h2 hreq (Or.inr (Or.inr ⟨hhi, hne⟩))
  rw [h3] at hmain
  refine ⟨hmain, ?_, ?_, ?_⟩
  · rw [hmain]; rfl
  · rw [hmain]
  · intro h404
    rw [hmain]
    simpa [ApiResponse.notFound] using h404

/-- Witness for C3: a single 404 with `maxAttempts = 5` and no auth
strategy — exactly one physical call, `attempts = 1`, `notFound`. -/
theorem c3_witness :
    physCount (invoke ⟨5, 1000, .exponential, emptyHeaders⟩
      (Env.mk (σ := Unit) (fun _ => .resp ⟨404, .null⟩) none []) none emptyHeaders ()).2 = 1 ∧
    (invoke ⟨5, 1000, .exponential, emptyHeaders⟩
      (Env.mk (σ := Unit) (fun _ => .resp ⟨404, .null⟩) none []) none emptyHeaders ()).1.attempts = 1 ∧
    (invoke ⟨5, 1000, .exponential, emptyHeaders⟩
      (Env.mk (σ := Unit) (fun _ => .resp ⟨404, .null⟩) none []) none emptyHeaders ()).1.notFound := by
  have h := c3_client_errors_terminal (σ := Unit) ⟨5, 1000, .exponential, emptyHeaders⟩
    ⟨fun _ => .resp ⟨404, .null⟩, none, []⟩ none emptyHeaders 1 () 0
    emptyHeaders () none ⟨404, .null⟩ rfl rfl rfl (by norm_num) (by norm_num) (by norm_num)
  exact ⟨h.2.1, h.2.2.1, h.2.2.2 rfl⟩

/-! ## C4: thrown exceptions are terminal -/

/-- **C4**: any exception raised during an attempt — auth-header
acquisition, token refresh, or the physical transport call — is caught
and becomes a terminal failed `ApiResponse` whose `error` is the thrown
error and which carries no transport response (so no status code:
`status` is the -1 sentinel), with no further physical attempts on that
path: the remaining trace holds at most the one failing call.  The three
conjuncts cover the three throw sites; the last records the absent
status code. -/
theorem c4_exceptions_terminal (opts : HttpClientOptions) (env : Env σ) (data : Option Json) :
    (∀ hs a st ci ac e, env.authClient = some ac → ac.getAuthHeader st = .error e →
      invokeWithRetries opts env data hs a st ci = (⟨none, some e, a⟩, [])) ∧
    (∀ hs a st ci hdrs st1 b e, authHeaderStep env hs st = .ok (hdrs, st1) →
      processOutbound env.outboundProcessors data = .ok b →
      env.transport ci = .exn e →
      invokeWithRetries opts env data hs a st ci =
        (⟨none, some e, a⟩,
         [.call a (mergeHeaders opts.customHeaders hdrs) (.exn e)])) ∧
    (∀ hs st ci hdrs st1 b r ac e, authHeaderStep env hs st = .ok (hdrs, st1) →
      processOutbound env.outboundProcessors data = .ok b →
      env.transport ci = .resp r → r.status = 401 → 1 < opts.maxAttempts →
      env.authClient = some ac → ac.refreshToken st1 = .error e →
      invokeWithRetries opts env data hs 1 st ci =
        (⟨none, some e, 1⟩,
         [.call 1 (mergeHeaders opts.customHeaders hdrs) (.resp r), .refresh])) ∧
    (∀ e a, (ApiResponse.mk none (some e) a).status = -1) := by
  refine ⟨?_, ?_, ?_, fun _ _ => rfl⟩
  · intro hs a st ci ac e hac herr
    apply invokeWithRetries_authFail
    simp [authHeaderStep, hac, herr]
  · intro hs a st ci hdrs st1 b e h1 h2 htr
    have h3 : httpRequest (env.transport ci) = .error e := by rw [htr]; rfl
    have h := invokeWithRetries_reqFail opts env data hs a st ci hdrs st1 b e h1 h2 h3
    rw [htr] at h
    exact h
  · intro hs st ci hdrs st1 b r ac e h1 h2 htr hstat hmax hac hrf
    have h3 : httpRequest (env.transport ci) = .ok r := by
      rw [htr]; simp only [httpRequest]; rw [if_pos (by omega)]
    have hc : ¬((200 ≤ r.status ∧ r.status < 300) ∨
        opts.maxAttempts ≤ 1 ∨ (r.status < 500 ∧ r.status ≠ 401)) := by omega
    have h := invokeWithRetries_refreshFail opts env data hs 1 st ci hdrs st1 b r ac e
      h1 h2 h3 hc hac ⟨hstat, rfl⟩ hrf
    rw [htr] at h
    exact h

/-- Witness for C4 at a concrete transport exception: the thrown error
is returned, no response object is present, and exactly one physical
call was made. -/
theorem c4_witness :
    (invoke ⟨3, 1000, .exponential, emptyHeaders⟩
       (Env.mk (σ := Unit) (fun _ => .exn (.ext 7)) none []) none emptyHeaders ()).1.error
      = some (.ext 7) ∧
    (invoke ⟨3, 1000, .exponential, emptyHeaders⟩
       (Env.mk (σ := Unit) (fun _ => .exn (.ext 7)) none []) none emptyHeaders ()).1.response
      = none ∧
    physCount (invoke ⟨3, 1000, .exponential, emptyHeaders⟩
       (Env.mk (σ := Unit) (fun _ => .exn (.ext 7)) none []) none emptyHeaders ()).2 = 1 := by
  have h := (c4_exceptions_terminal (σ := Unit) ⟨3, 1000, .exponential, emptyHeaders⟩
    ⟨fun _ => .exn (.ext 7), none, []⟩ none).2.1
    emptyHeaders 1 () 0 emptyHeaders () none (.ext 7) rfl rfl rfl
  unfold invoke
  rw [h]
  exact ⟨rfl, rfl, rfl⟩

/-! ## C2: the privileged first-attempt 401 refresh -/

/-- **C2**: if the first attempt returns 401 and an auth strategy is
configured, `refreshToken` is invoked exactly once and a second physical
call follows immediately — no backoff delay between the 401 and the
retry — with its auth header re-derived from the refreshed strategy
state and merged over the headers the first attempt carried; when the
re-derived header covers the keys of the first one (the usual single
`Authorization` key), that equals the fresh auth header merged over the
original caller headers.  If the second attempt is also a 401 the
machine falls through to the generic delayed retry and never invokes
`refreshToken` again within the logical call. -/
theorem c2_privileged_401_refresh (opts : HttpClientOptions) (env : Env σ)
    (data : Option Json) (hs : HeaderMap) (st : σ)
    (ac : AuthClient σ) (h0 h1 : HeaderMap) (st0 st1 st1' : σ)
    (r0 r1 : AxiosResponse)
    (hac : env.authClient = some ac)
    (hga0 : ac.getAuthHeader st = .ok (h0, st0))
    (hrf : ac.refreshToken st0 = .ok st1)
    (hga1 : ac.getAuthHeader st1 = .ok (h1, st1'))
    (hproc : ∃ b, processOutbound env.outboundProcessors data = .ok b)
    (htr0 : env.transport 0 = .resp r0) (hst0 : r0.status = 401)
    (htr1 : env.transport 1 = .resp r1) (hst1 : r1.status = 401)
    (hmax : 3 ≤ opts.maxAttempts) :
    (invoke opts env data hs st).2.take 4 =
      [.call 1 (mergeHeaders opts.customHeaders (mergeHeaders hs h0)) (.resp r0),
       .refresh,
       .call 2 (mergeHeaders opts.customHeaders (mergeHeaders (mergeHeaders hs h0) h1)) (.resp r1),
       .delay (calculateRetryDelay opts 2)] ∧
    refreshCount (invoke opts env data hs st).2 = 1 ∧
    ((∀ k, (h0 k).isSome → (h1 k).isSome) →
      mergeHeaders (mergeHeaders hs h0) h1 = mergeHeaders hs h1) := by
  obtain ⟨b, hpr⟩ := hproc
  have hstep0 : authHeaderStep env hs st = .ok (mergeHeaders hs h0, st0) := by
    simp [authHeaderStep, hac, hga0]
  have hreq0 : httpRequest (env.transport 0) = .ok r0 := by
    rw [htr0]; simp only [httpRequest]; rw [if_pos (by omega)]
  have hc0 : ¬((200 ≤ r0.status ∧ r0.status < 300) ∨
      opts.maxAttempts ≤ 1 ∨ (r0.status < 500 ∧ r0.status ≠ 401)) := by omega
  have heq0 := invokeWithRetries_refreshOk opts env data hs 1 st 0 (mergeHeaders hs h0)
    st0 b r0 ac st1 hstep0 hpr hreq0 hc0 hac ⟨hst0, rfl⟩ hrf
  have hstep1 : authHeaderStep env (mergeHeaders hs h0) st1 =
      .ok (mergeHeaders (mergeHeaders hs h0) h1, st1') := by
    simp [authHeaderStep, hac, hga1]
  have hreq1 : httpRequest (env.transport 1) = .ok r1 := by
    rw [htr1]; simp only [httpRequest]; rw [if_pos (by omega)]
  have hc1 : ¬((200 ≤ r1.status ∧ r1.status < 300) ∨
      opts.maxAttempts ≤ 2 ∨ (r1.status < 500 ∧ r1.status ≠ 401)) := by omega
  have h401' : ¬(r1.status = 401 ∧ 2 = 1) := by omega
  have heq1 := invokeWithRetries_delayAuth opts env data (mergeHeaders hs h0) 2 st1 1
    (mergeHeaders (mergeHeaders hs h0) h1) st1' b r1 ac hstep1 hpr hreq1 hc1 hac h401'
  have hzero := refreshCount_zero opts env data opts.maxAttempts 3
    (mergeHeaders (mergeHeaders hs h0) h1) st1' 2 (by omega) (by omega)
  unfold invoke
  rw [heq0, heq1, htr0, htr1]
  refine ⟨rfl, ?_, ?_⟩
  · simp only [refreshCount, List.countP_cons] at hzero ⊢
    simp [isRefreshEvent, hzero]
  · intro hdom
    funext k
    unfold mergeHeaders
    cases hk1 : h1 k with
    | some v => rfl
    | none =>
      cases hk0 : h0 k with
      | some v =>
        have := hdom k (by rw [hk0]; rfl)
        rw [hk1] at this
        cases this
      | none => rfl

/-! ## C1: bounded, delay-paced retries with exact attempt accounting -/

theorem physCount_nil : physCount [] = 0 := rfl

theorem physCount_cons_call (a : Nat) (hd : HeaderMap) (o : TransportOutcome)
    (t : List Event) : physCount (.call a hd o :: t) = physCount t + 1 := by
  simp [physCount, List.countP_cons, isCallEvent]

theorem physCount_cons_refresh (t : List Event) :
    physCount (.refresh :: t) = physCount t := by
  simp [physCount, List.countP_cons, isCallEvent]

theorem physCount_cons_delay (d : Nat) (t : List Event) :
    physCount (.delay d :: t) = physCount t := by
  simp [physCount, List.countP_cons, isCallEvent]

/-- A status handled by the generic delayed-retry arm: a 5xx, or a 401
that is not privileged (not attempt 1 with an auth strategy present). -/
def Retryable (authPresent : Bool) (a s : Nat) : Prop :=
  500 ≤ s ∨ (s = 401 ∧ ¬(a = 1 ∧ authPresent = true))

/-- Every physical call in the trace that resolved with a retryable
status, while attempts remain, is immediately followed by the computed
backoff delay and then by the next physical call at attempt number one
higher. -/
def RetriedWithDelay (opts : HttpClientOptions) (authPresent : Bool)
    (evs : List Event) : Prop :=
  ∀ i a hd r, evs[i]? = some (.call a hd (.resp r)) →
    Retryable authPresent a r.status → a < opts.maxAttempts →
    evs[i+1]? = some (.delay (calculateRetryDelay opts a)) ∧
    ∃ hd2 o2, evs[i+2]? = some (.call (a+1) hd2 o2)

theorem rwd_single (opts : HttpClientOptions) (ap : Bool) (a : Nat)
    (hd : HeaderMap) (o : TransportOutcome)
    (hterm : ∀ r, o = .resp r → Retryable ap a r.status →
      a < opts.maxAttempts → False) :
    RetriedWithDelay opts ap [.call a hd o] := by
  intro i a' hd' r' hi hr hlt
  match i with
  | 0 =>
    simp only [List.getElem?_cons_zero, Option.some.injEq, Event.call.injEq] at hi
    obtain ⟨ha, hhd, ho⟩ := hi
    subst ha
    exact (hterm r' ho hr hlt).elim
  | i + 1 =>
    simp at hi

theorem rwd_cons2 (opts : HttpClientOptions) (ap : Bool) (a : Nat)
    (hd : HeaderMap) (o : TransportOutcome) (mid : Event) (rest : List Event)
    (hmid : isCallEvent mid = false)
    (hhead : ∀ r, o = .resp r → Retryable ap a r.status → a < opts.maxAttempts →
      mid = .delay (calculateRetryDelay opts a) ∧
      ∃ hd2 o2, rest[0]? = some (.call (a+1) hd2 o2))
    (hrest : RetriedWithDelay opts ap rest) :
    RetriedWithDelay opts ap (.call a hd o :: mid :: rest) := by
  intro i a' hd' r' hi hr hlt
  match i with
  | 0 =>
    simp only [List.getElem?_cons_zero, Option.some.injEq, Event.call.injEq] at hi
    obtain ⟨ha, hhd, ho⟩ := hi
    subst ha
    obtain ⟨hmideq, hd2, o2, hnext⟩ := hhead r' ho hr hlt
    subst hmideq
    refine ⟨?_, hd2, o2, ?_⟩
    · simp only [List.getElem?_cons_succ, List.getElem?_cons_zero]
    · simpa only [List.getElem?_cons_succ, List.getElem?_cons_zero] using hnext
  | 1 =>
    simp only [List.getElem?_cons_succ, List.getElem?_cons_zero, Option.some.injEq] at hi
    rw [hi] at hmid
    simp [isCallEvent] at hmid
  | i + 2 =>
    simp only [List.getElem?_cons_succ] at hi
    have := hrest i a' hd' r' hi hr hlt
    simpa only [List.getElem?_cons_succ] using this

/-- The per-attempt invariant of the retry loop: the trace from attempt
`a` on starts with the attempt-`a` physical call, holds at most
`maxAttempts - a + 1` physical calls, the returned attempt counter is
`a - 1` plus the number of physical calls made, and every non-final
retryable call is followed by its computed delay and the next call. -/
def InvP (opts : HttpClientOptions) (ap : Bool) (a : Nat)
    (out : ApiResponse × List Event) : Prop :=
  (∃ hd o rest, out.2 = .call a hd o :: rest) ∧
  physCount out.2 ≤ opts.maxAttempts - a + 1 ∧
  out.1.attempts = a + physCount out.2 - 1 ∧
  RetriedWithDelay opts ap out.2

/-- One unfolding step of the invariant, assuming it for attempt `a+1`. -/
theorem invoke_aux_level (opts : HttpClientOptions) (env : Env σ) (data : Option Json)
    (b : Option Json) (hpr : processOutbound env.outboundProcessors data = .ok b)
    (hauth : ∀ ac, env.authClient = some ac →
      (∀ s, ∃ p, ac.getAuthHeader s = .ok p) ∧ (∀ s, ∃ s2, ac.refreshToken s = .ok s2))
    (a : Nat) (hs : HeaderMap) (st : σ) (ci : Nat)
    (hrec : ∀ hs2 st2, a < opts.maxAttempts →
      InvP opts env.authClient.isSome (a + 1)
        (invokeWithRetries opts env data hs2 (a + 1) st2 (ci + 1))) :
    InvP opts env.authClient.isSome a (invokeWithRetries opts env data hs a st ci) := by
  have hstep : ∃ hdrs st1, authHeaderStep env hs st = .ok (hdrs, st1) := by
    cases hac : env.authClient with
    | none => exact ⟨hs, st, by simp [authHeaderStep, hac]⟩
    | some ac =>
      obtain ⟨⟨ah, st1⟩, hga⟩ := (hauth ac hac).1 st
      exact ⟨mergeHeaders hs ah, st1, by simp [authHeaderStep, hac, hga]⟩
  obtain ⟨hdrs, st1, h1⟩ := hstep
  cases h3 : httpRequest (env.transport ci) with
  | error e =>
    rw [invokeWithRetries_reqFail opts env data hs a st ci hdrs st1 b e h1 hpr h3]
    refine ⟨⟨_, _, _, rfl⟩, ?_, ?_, ?_⟩
    · rw [physCount_cons_call, physCount_nil]; omega
    · rw [physCount_cons_call, physCount_nil]
      show a = a + (0 + 1) - 1
      omega
    · apply rwd_single
      intro r ho hr hlt
      rw [ho] at h3
      simp only [httpRequest] at h3
      split at h3
      · simp at h3
      · rename_i hn200
        rcases hr with h5 | ⟨h401, _⟩ <;> omega
  | ok res =>
    by_cases hc : (200 ≤ res.status ∧ res.status < 300) ∨
        opts.maxAttempts ≤ a ∨ (res.status < 500 ∧ res.status ≠ 401)
    · rw [invokeWithRetries_terminal opts env data hs a st ci hdrs st1 b res h1 hpr h3 hc]
      refine ⟨⟨_, _, _, rfl⟩, ?_, ?_, ?_⟩
      · rw [physCount_cons_call, physCount_nil]; omega
      · rw [physCount_cons_call, physCount_nil]
        show a = a + (0 + 1) - 1
        omega
      · apply rwd_single
        intro r ho hr hlt
        rw [ho] at h3
        simp only [httpRequest] at h3
        split at h3
        · rename_i h200
          injection h3 with h3'
          subst h3'
          rcases hr with h5 | ⟨h401, _⟩ <;> rcases hc with hA | hB | hC <;> omega
        · simp at h3
    · have haLt : a < opts.maxAttempts := by omega
      cases hac : env.authClient with
      | none =>
        rw [invokeWithRetries_delayNoAuth opts env data hs a st ci hdrs st1 b res
          h1 hpr h3 hc hac]
        obtain ⟨⟨hd2, o2, rest2, hhead2⟩, hpc2, hatt2, hrwd2⟩ := hrec hdrs st1 haLt
        rw [hac] at hrwd2
        refine ⟨⟨_, _, _, rfl⟩, ?_, ?_, ?_⟩
        · rw [physCount_cons_call, physCount_cons_delay]; omega
        · rw [physCount_cons_call, physCount_cons_delay]
          show (invokeWithRetries opts env data hdrs (a + 1) st1 (ci + 1)).1.attempts = _
          omega
        · apply rwd_cons2
          · rfl
          · intro r ho hr hlt
            refine ⟨rfl, hd2, o2, ?_⟩
            rw [hhead2]
            simp only [List.getElem?_cons_zero]
          · exact hrwd2
      | some ac =>
        by_cases h401 : res.status = 401 ∧ a = 1
        · obtain ⟨st2, hrf⟩ := (hauth ac hac).2 st1
          rw [invokeWithRetries_refreshOk opts env data hs a st ci hdrs st1 b res ac st2
            h1 hpr h3 hc hac h401 hrf]
          obtain ⟨⟨hd2, o2, rest2, hhead2⟩, hpc2, hatt2, hrwd2⟩ := hrec hdrs st2 haLt
          rw [hac] at hrwd2
          refine ⟨⟨_, _, _, rfl⟩, ?_, ?_, ?_⟩
          · rw [physCount_cons_call, physCount_cons_refresh]; omega
          · rw [physCount_cons_call, physCount_cons_refresh]
            show (invokeWithRetries opts env data hdrs (a + 1) st2 (ci + 1)).1.attempts = _
            omega
          · apply rwd_cons2
            · rfl
            · intro r ho hr hlt
              rw [ho] at h3
              simp only [httpRequest] at h3
              split at h3
              · injection h3 with h3'
                subst h3'
                rcases hr with h5 | ⟨_, hnp⟩
                · omega
                · exact (hnp ⟨h401.2, rfl⟩).elim
              · simp at h3
            · exact hrwd2
        · rw [invokeWithRetries_delayAuth opts env data hs a st ci hdrs st1 b res ac
            h1 hpr h3 hc hac h401]
          obtain ⟨⟨hd2, o2, rest2, hhead2⟩, hpc2, hatt2, hrwd2⟩ := hrec hdrs st1 haLt
          rw [hac] at hrwd2
          refine ⟨⟨_, _, _, rfl⟩, ?_, ?_, ?_⟩
          · rw [physCount_cons_call, physCount_cons_delay]; omega
          · rw [physCount_cons_call, physCount_cons_delay]
            show (invokeWithRetries opts env data hdrs (a + 1) st1 (ci + 1)).1.attempts = _
            omega
          · apply rwd_cons2
            · rfl
            · intro r ho hr hlt
              refine ⟨rfl, hd2, o2, ?_⟩
              rw [hhead2]
              simp only [List.getElem?_cons_zero]
            · exact hrwd2

/-- The invariant holds at every attempt counter `a ≥ 1`. -/
theorem invoke_aux (opts : HttpClientOptions) (env : Env σ) (data : Option Json)
    (hauth : ∀ ac, env.authClient = some ac →
      (∀ s, ∃ p, ac.getAuthHeader s = .ok p) ∧ (∀ s, ∃ s2, ac.refreshToken s = .ok s2))
    (hproc : ∃ b, processOutbound env.outboundProcessors data = .ok b) :
    ∀ n a hs st ci, opts.maxAttempts - a ≤ n → 1 ≤ a →
      InvP opts env.authClient.isSome a (invokeWithRetries opts env data hs a st ci) := by
  obtain ⟨b, hpr⟩ := hproc
  intro n
  induction n with
  | zero =>
    intro a hs st ci hn ha
    exact invoke_aux_level opts env data b hpr hauth a hs st ci
      (fun hs2 st2 hlt => absurd hlt (by omega))
  | succ n ih =>
    intro a hs st ci hn ha
    exact invoke_aux_level opts env data b hpr hauth a hs st ci
      (fun hs2 st2 hlt => ih (a + 1) hs2 st2 (ci + 1) (by omega) (by omega))

/-- **C1**: for every configuration with `maxAttempts ≥ 1` and every
sequence of transport outcomes (with the auth strategy and outbound
processors not throwing, so that every attempt reaches the transport), a
logical call makes at least one and at most `maxAttempts` physical
attempts, attempt numbers are 1-based (the trace starts with the
attempt-1 call, and each retry's following call carries the next attempt
number), the final `attempts` field equals the exact number of physical
calls made, and every non-final call with status ≥ 500 or a
non-privileged 401 is retried after the computed backoff delay. -/
theorem c1_bounded_retries (opts : HttpClientOptions) (env : Env σ)
    (data : Option Json) (hs : HeaderMap) (st : σ)
    (hmax : 1 ≤ opts.maxAttempts)
    (hauth : ∀ ac, env.authClient = some ac →
      (∀ s, ∃ p, ac.getAuthHeader s = .ok p) ∧ (∀ s, ∃ s2, ac.refreshToken s = .ok s2))
    (hproc : ∃ b, processOutbound env.outboundProcessors data = .ok b) :
    1 ≤ physCount (invoke opts env data hs st).2 ∧
    physCount (invoke opts env data hs st).2 ≤ opts.maxAttempts ∧
    (invoke opts env data hs st).1.attempts = physCount (invoke opts env data hs st).2 ∧
    (∃ hd o rest, (invoke opts env data hs st).2 = .call 1 hd o :: rest) ∧
    RetriedWithDelay opts env.authClient.isSome (invoke opts env data hs st).2 := by
  have h := invoke_aux opts env data hauth hproc opts.maxAttempts 1 hs st 0
    (by omega) (by omega)
  unfold invoke
  obtain ⟨⟨hd1, o1, rest1, hhead⟩, hle, hatt, hrwd⟩ := h
  have hpc : 1 ≤ physCount (invokeWithRetries opts env data hs 1 st 0).2 := by
    rw [hhead, physCount_cons_call]; omega
  exact ⟨hpc, by omega, by omega, ⟨hd1, o1, rest1, hhead⟩, hrwd⟩

/-- Witness for C1: three 500s against `maxAttempts = 3` — between one
and three physical calls, with the attempts field equal to the count. -/
theorem c1_witness :
    1 ≤ physCount (invoke ⟨3, 1000, .exponential, emptyHeaders⟩
      (Env.mk (σ := Unit) (fun _ => .resp ⟨500, .null⟩) none []) none emptyHeaders ()).2 ∧
    physCount (invoke ⟨3, 1000, .exponential, emptyHeaders⟩
      (Env.mk (σ := Unit) (fun _ => .resp ⟨500, .null⟩) none []) none emptyHeaders ()).2 ≤ 3 ∧
    (invoke ⟨3, 1000, .exponential, emptyHeaders⟩
      (Env.mk (σ := Unit) (fun _ => .resp ⟨500, .null⟩) none []) none emptyHeaders ()).1.attempts
      = physCount (invoke ⟨3, 1000, .exponential, emptyHeaders⟩
      (Env.mk (σ := Unit) (fun _ => .resp ⟨500, .null⟩) none []) none emptyHeaders ()).2 := by
  have h := c1_bounded_retries (σ := Unit) ⟨3, 1000, .exponential, emptyHeaders⟩
    ⟨fun _ => .resp ⟨500, .null⟩, none, []⟩ none emptyHeaders ()
    (by decide) (fun ac hac => Option.noConfusion hac) ⟨none, rfl⟩
  exact ⟨h.1, h.2.1, h.2.2.1⟩

/-- Witness for C2 at a concrete auth strategy and two 401s: exactly one
refresh, sitting right after the first call, and a generic delay after
the second 401. -/
theorem c2_witness :
    refreshCount (invoke ⟨3, 1000, .exponential, emptyHeaders⟩
      (Env.mk (σ := Nat) (fun _ => .resp ⟨401, .null⟩)
        (some ⟨fun s => .ok (emptyHeaders, s), fun s => .ok (s + 1)⟩) [])
      none emptyHeaders 0).2 = 1 ∧
    ((invoke ⟨3, 1000, .exponential, emptyHeaders⟩
      (Env.mk (σ := Nat) (fun _ => .resp ⟨401, .null⟩)
        (some ⟨fun s => .ok (emptyHeaders, s), fun s => .ok (s + 1)⟩) [])
      none emptyHeaders 0).2.take 4)[1]? = some .refresh ∧
    ((invoke ⟨3, 1000, .exponential, emptyHeaders⟩
      (Env.mk (σ := Nat) (fun _ => .resp ⟨401, .null⟩)
        (some ⟨fun s => .ok (emptyHeaders, s), fun s => .ok (s + 1)⟩) [])
      none emptyHeaders 0).2.take 4)[3]? = some (.delay 4000) := by
  have h := c2_privileged_401_refresh (σ := Nat) ⟨3, 1000, .exponential, emptyHeaders⟩
    ⟨fun _ => .resp ⟨401, .null⟩,
      some ⟨fun s => .ok (emptyHeaders, s), fun s => .ok (s + 1)⟩, []⟩
    none emptyHeaders 0 ⟨fun s => .ok (emptyHeaders, s), fun s => .ok (s + 1)⟩
    emptyHeaders emptyHeaders 0 1 1 ⟨401, .null⟩ ⟨401, .null⟩
    rfl rfl rfl rfl ⟨none, rfl⟩ rfl rfl rfl rfl (by decide)
  refine ⟨h.2.1, ?_, ?_⟩
  · rw [h.1]; rfl
  · rw [h.1]; rfl

/-! ## C5: `ApiResult` and `HttpClient.parseResult` -/

/-- `ApiResult<T>`: an `ApiResponse` extended with the unwrapped typed
value (`none` = JS `undefined`). -/
structure ApiResult where
  value : Option Json
  response : Option AxiosResponse
  error : Option Err
  attempts : Nat

/-- The `ApiResponse` part an `ApiResult` inherits (it `extends
ApiResponse` in the source). -/
def ApiResult.toApiResponse (r : ApiResult) : ApiResponse :=
  ⟨r.response, r.error, r.attempts⟩

/-- The inherited `success` getter of a result. -/
def ApiResult.success (r : ApiResult) : Prop := r.toApiResponse.success

/-- The inherited `status` getter of a result. -/
def ApiResult.status (r : ApiResult) : Int := r.toApiResponse.status

/-- The inbound processing of `parseResult` after a successful transport
exchange: `inboundProcessors.forEach((p) => (data = p.processJson(data)))`
followed by the optional `plainToClass` + `validateOrReject` step,
embedded as one injected fallible transform. -/
def inboundPipeline (procs : List (Json → Except Err Json))
    (transform : Option (Json → Except Err Json)) (d : Json) : Except Err Json :=
  runProcs procs d >>= fun d2 =>
    match transform with
    | some tr => tr d2
    | none => .ok d2

/-- `HttpClient.parseResult`: a failed response is wrapped unchanged
(`value` absent); a successful one has its body run through the inbound
pipeline, any thrown error being caught and recorded on an otherwise
unchanged result.  (When `success` holds the response object is
necessarily present; the remaining arm is unreachable — in JS the
`TypeError` from reading `data` of `undefined` would land in the same
`catch`.) -/
def parseResult (resp : ApiResponse) (procs : List (Json → Except Err Json))
    (transform : Option (Json → Except Err Json)) : ApiResult :=
  if ¬resp.success then
    ⟨none, resp.response, resp.error, resp.attempts⟩
  else
    match resp.response with
    | some ar =>
      match inboundPipeline procs transform ar.data with
      | .ok d => ⟨some d, resp.response, none, resp.attempts⟩
      | .error e => ⟨none, resp.response, some e, resp.attempts⟩
    | none => ⟨none, none, some (.ext 0), resp.attempts⟩

theorem ApiResponse.status_of_no_response (r : ApiResponse) (h : r.response = none) :
    r.status = -1 := by
  unfold ApiResponse.status
  rw [h]

theorem ApiResponse.response_isSome_of_success (r : ApiResponse) (h : r.success) :
    ∃ ar, r.response = some ar := by
  cases hr : r.response with
  | some ar => exact ⟨ar, rfl⟩
  | none =>
    have hst := ApiResponse.status_of_no_response r hr
    unfold ApiResponse.success at h
    rw [hst] at h
    omega

/-- **C5**: the result's `value` is present iff the underlying response
was successful and the inbound pipeline succeeded on its body; and when
the pipeline throws after a successful transport exchange, the returned
result records the thrown error in its `error` field — so its `success`
is false and `value` absent — while its response object (hence status)
and attempts are taken unchanged from the original response. -/
theorem c5_parse_result (resp : ApiResponse) (procs : List (Json → Except Err Json))
    (transform : Option (Json → Except Err Json)) :
    ((parseResult resp procs transform).value.isSome = true ↔
      (resp.success ∧ ∃ ar d, resp.response = some ar ∧
        inboundPipeline procs transform ar.data = .ok d)) ∧
    (∀ ar e, resp.response = some ar → resp.success →
      inboundPipeline procs transform ar.data = .error e →
      (parseResult resp procs transform).value = none ∧
      (parseResult resp procs transform).error = some e ∧
      ¬(parseResult resp procs transform).success ∧
      (parseResult resp procs transform).response = resp.response ∧
      (parseResult resp procs transform).status = resp.status ∧
      (parseResult resp procs transform).attempts = resp.attempts) := by
  by_cases hs : resp.success
  · obtain ⟨ar, har⟩ := ApiResponse.response_isSome_of_success resp hs
    cases hpipe : inboundPipeline procs transform ar.data with
    | ok d =>
      have hres : parseResult resp procs transform =
          ⟨some d, resp.response, none, resp.attempts⟩ := by
        unfold parseResult
        rw [if_neg (by simpa using hs), har]
        simp only [hpipe]
      rw [hres]
      refine ⟨iff_of_true rfl ⟨hs, ar, d, har, hpipe⟩, ?_⟩
      intro ar' e har' _ hpipe'
      rw [har] at har'
      injection har' with har'
      rw [← har'] at hpipe'
      rw [hpipe] at hpipe'
      cases hpipe'
    | error e =>
      have hres : parseResult resp procs transform =
          ⟨none, resp.response, some e, resp.attempts⟩ := by
        unfold parseResult
        rw [if_neg (by simpa using hs), har]
        simp only [hpipe]
      rw [hres]
      refine ⟨iff_of_false (by simp) ?_, ?_⟩
      · rintro ⟨_, ar', d', har', hpipe'⟩
        rw [har] at har'
        injection har' with har'
        rw [← har'] at hpipe'
        rw [hpipe] at hpipe'
        cases hpipe'
      · intro ar' e' har' _ hpipe'
        rw [har] at har'
        injection har' with har'
        rw [← har'] at hpipe'
        rw [hpipe] at hpipe'
        injection hpipe' with he
        subst he
        refine ⟨rfl, rfl, ?_, rfl, ?_, rfl⟩
        · unfold ApiResult.success ApiResult.toApiResponse ApiResponse.success
          simp
        · unfold ApiResult.status ApiResult.toApiResponse ApiResponse.status
          rfl
  · have hres : parseResult resp procs transform =
        ⟨none, resp.response, resp.error, resp.attempts⟩ := by
      unfold parseResult
      rw [if_pos (by simpa using hs)]
    rw [hres]
    refine ⟨iff_of_false (by simp) ?_, ?_⟩
    · rintro ⟨h, _⟩
      exact hs h
    · intro ar e _ h _
      exact absurd h hs

/-- Witness for C5: a successful 200 response whose transform throws —
the error is captured, `value` is absent, `success` flips to false, and
the response object and attempts survive unchanged. -/
theorem c5_witness :
    (parseResult ⟨some ⟨200, .null⟩, none, 2⟩ [] (some fun _ => .error (.ext 5))).value = none ∧
    (parseResult ⟨some ⟨200, .null⟩, none, 2⟩ [] (some fun _ => .error (.ext 5))).error = some (.ext 5) ∧
    ¬(parseResult ⟨some ⟨200, .null⟩, none, 2⟩ [] (some fun _ => .error (.ext 5))).success ∧
    (parseResult ⟨some ⟨200, .null⟩, none, 2⟩ [] (some fun _ => .error (.ext 5))).response
      = some ⟨200, .null⟩ ∧
    (parseResult ⟨some ⟨200, .null⟩, none, 2⟩ [] (some fun _ => .error (.ext 5))).attempts = 2 := by
  have h := (c5_parse_result ⟨some ⟨200, .null⟩, none, 2⟩ []
    (some fun _ => .error (.ext 5))).2 ⟨200, .null⟩ (.ext 5) rfl (by decide) rfl
  exact ⟨h.1, h.2.1, h.2.2.1, h.2.2.2.1, h.2.2.2.2.2⟩

/-! ## C9: `StringTransformJsonProcessor` and `IsoDateProcessor` -/

/-- Is `c` between `lo` and `hi` inclusive (a regex character class)? -/
def charBetween (lo hi c : Char) : Bool :=
  lo.toNat ≤ c.toNat && c.toNat ≤ hi.toNat

/-- Does the 16-character pattern
`\d{4}-[01]\d-[0-3]\dT[0-2]\d:[0-5]\d` match at the head of the list? -/
def isoHead : List Char → Bool
  | y1 :: y2 :: y3 :: y4 :: s1 :: mo1 :: mo2 :: s2 :: d1 :: d2 :: t1 :: h1 :: h2 :: s3 :: mi1 :: mi2 :: _ =>
    y1.isDigit && y2.isDigit && y3.isDigit && y4.isDigit && s1 == '-' &&
    charBetween '0' '1' mo1 && mo2.isDigit && s2 == '-' &&
    charBetween '0' '3' d1 && d2.isDigit && t1 == 'T' &&
    charBetween '0' '2' h1 && h2.isDigit && s3 == ':' &&
    charBetween '0' '5' mi1 && mi2.isDigit
  | _ => false

/-- `IsoDateProcessor.iso8601.test(value)`: the regex is unanchored and
its third alternative (`\d{4}-[01]\d-[0-3]\dT[0-2]\d:[0-5]\d`) is a
prefix of the other two, so `test` succeeds exactly when the
16-character pattern matches at some position. -/
def isoTest : List Char → Bool
  | [] => false
  | c :: rest => isoHead (c :: rest) || isoTest rest

/-- Two-digit decimal read (`none` when either char is not a digit). -/
def digit2 (a b : Char) : Option Nat :=
  if a.isDigit && b.isDigit then some ((a.toNat - 48) * 10 + (b.toNat - 48)) else none

/-- Days from 1970-01-01 to the given proleptic-Gregorian civil date
(the standard era-based algorithm). -/
def daysFromCivil (y m d : Int) : Int :=
  let y2 : Int := if m ≤ 2 then y - 1 else y
  let era : Int := (if 0 ≤ y2 then y2 else y2 - 399) / 400
  let yoe : Int := y2 - era * 400
  let mp : Int := if 2 < m then m - 3 else m + 9
  let doy : Int := (153 * mp + 2) / 5 + d - 1
  let doe : Int := yoe * 365 + yoe / 4 - yoe / 100 + doy
  era * 146097 + doe - 719468

/-- Milliseconds denoted by a fraction-digit run (first three digits,
right-padded with zeros). -/
def msOfFrac (digs : List Char) : Nat :=
  (digs.take 3 ++ List.replicate (3 - digs.length) '0').foldl
    (fun acc c => acc * 10 + (c.toNat - 48)) 0

/-- Timezone designator: empty (treated as UTC here, see `dateParse`),
`Z`/`z`, or `±HH:MM`, as signed offset minutes. -/
def parseTz : List Char → Option Int
  | [] => some 0
  | ['Z'] => some 0
  | ['z'] => some 0
  | sgn :: h1 :: h2 :: ':' :: m1 :: m2 :: [] =>
    match digit2 h1 h2, digit2 m1 m2 with
    | some hh, some mm =>
      if sgn == '+' then some ((hh : Int) * 60 + (mm : Int))
      else if sgn == '-' then some (-((hh : Int) * 60 + (mm : Int))) else none
    | _, _ => none
  | _ => none

/-- Optional `.fff…` fraction followed by the timezone designator. -/
def parseFracTz : List Char → Option (Nat × Int)
  | '.' :: rest =>
    let digs := rest.takeWhile Char.isDigit
    let rest2 := rest.dropWhile Char.isDigit
    if digs.isEmpty then none
    else (parseTz rest2).map fun tz => (msOfFrac digs, tz)
  | l => (parseTz l).map fun tz => (0, tz)

/-- Optional `:SS[.fff…]` seconds, then the timezone designator, as
(seconds, milliseconds, offset minutes). -/
def parseSecFracTz : List Char → Option (Nat × Nat × Int)
  | ':' :: s1 :: s2 :: rest =>
    match digit2 s1 s2 with
    | some ss => (parseFracTz rest).map fun p => (ss, p.1, p.2)
    | none => none
  | l => (parseTz l).map fun tz => (0, 0, tz)

/-- Model of the ECMAScript `Date.parse` on the ISO-8601 date-time
strings the processor feeds it (`YYYY-MM-DDTHH:MM[:SS[.fff…]]` with an
optional `Z` or `±HH:MM` designator), as epoch milliseconds; `none`
models `NaN`, i.e. an Invalid Date, for any other shape or an
out-of-range field.  The ECMAScript spec reads a date-time without a
designator in local time; this model fixes the environment's local
offset to UTC. -/
def dateParse (s : String) : Option Int :=
  match s.data with
  | y1 :: y2 :: y3 :: y4 :: '-' :: mo1 :: mo2 :: '-' :: d1 :: d2 :: 'T' :: h1 :: h2 :: ':' :: mi1 :: mi2 :: rest =>
    match digit2 y1 y2, digit2 y3 y4, digit2 mo1 mo2, digit2 d1 d2,
        digit2 h1 h2, digit2 mi1 mi2 with
    | some yh, some yl, some mo, some dd, some hh, some mi =>
      match parseSecFracTz rest with
      | some (ss, ms, tzMin) =>
        if 1 ≤ mo ∧ mo ≤ 12 ∧ 1 ≤ dd ∧ dd ≤ 31 ∧ hh ≤ 24 ∧ mi ≤ 59 ∧ ss ≤ 59 then
          some (daysFromCivil ((yh : Int) * 100 + (yl : Int)) (mo : Int) (dd : Int) * 86400000 +
            (hh : Int) * 3600000 + (mi : Int) * 60000 + (ss : Int) * 1000 + (ms : Int) -
            tzMin * 60000)
        else none
      | none => none
    | _, _, _, _, _, _ => none
  | _ => none

/-- `IsoDateProcessor.transformIsoDate`: when the regex test succeeds,
return `new Date(Date.parse(value))`; otherwise return `undefined`
(no transformation). -/
def transformIsoDate (value : String) : Option Json :=
  if isoTest value.data then some (.date (dateParse value)) else none

mutual

/-- The per-key dispatch inside `StringTransformJsonProcessor.parse`'s
`Object.keys(json).forEach` body: an array value recurses `parse` over
each *element* (so a string element is never handed to the transformer —
a string is not an object and `parse` returns at once); a string value
is handed to the transformer and replaced unless it returns `undefined`;
any other value recurses `parse` (inlined: an object iterates its keys,
anything else — including a `Date`, an object with no own enumerable
keys — is left alone). -/
def stValue (tf : String → Option Json) : Json → Json
  | .arr elems => .arr (stParseList tf elems)
  | .str s =>
    match tf s with
    | some t => t
    | none => .str s
  | .obj fields => .obj (stFields tf fields)
  | v => v

def stFields (tf : String → Option Json) : List (String × Json) → List (String × Json)
  | [] => []
  | kv :: rest => (kv.1, stValue tf kv.2) :: stFields tf rest

def stParseList (tf : String → Option Json) : List Json → List Json
  | [] => []
  | v :: rest => stParse tf v :: stParseList tf rest

/-- `StringTransformJsonProcessor.parse`: abort unless the argument is a
JS object (arrays are objects too); otherwise iterate its own enumerable
keys (an array's keys are its indices) dispatching each value. -/
def stParse (tf : String → Option Json) : Json → Json
  | .obj fields => .obj (stFields tf fields)
  | .arr elems => .arr (stElems tf elems)
  | j => j

def stElems (tf : String → Option Json) : List Json → List Json
  | [] => []
  | v :: rest => stValue tf v :: stElems tf rest

end

/-- `StringTransformJsonProcessor.processJson`: run the in-place
recursive parse and return the (mutated) document. -/
def stProcessJson (tf : String → Option Json) (j : Json) : Json := stParse tf j

/-- The `jsonProcessing/IsoDateProcessor`: the string-transform
processor instantiated with `transformIsoDate`. -/
def isoProcessJson (j : Json) : Json := stProcessJson transformIsoDate j

/-- **C9 counterexample**: a matching ISO string sitting directly inside
an array under an object key is left untransformed — the walk hands
array elements to `parse`, which returns non-objects at once — although
the transformer recognizes it, so the claim's "replaces every matching
string leaf, recursing through objects and arrays" fails here. -/
theorem c9_counterexample :
    isoProcessJson (.obj [("a", .arr [.str "2024-01-01T00:00:00Z"])]) =
      .obj [("a", .arr [.str "2024-01-01T00:00:00Z"])] ∧
    (transformIsoDate "2024-01-01T00:00:00Z").isSome = true := by
  exact ⟨rfl, rfl⟩

theorem stFields_map_str (tf : String → Option Json) (fields : List (String × String)) :
    stFields tf (fields.map fun kv => (kv.1, .str kv.2)) =
      fields.map fun kv => (kv.1,
        match tf kv.2 with
        | some t => t
        | none => .str kv.2) := by
  induction fields with
  | nil => rfl
  | cons kv rest ih =>
    simp only [List.map_cons, stFields, stValue]
    rw [ih]

theorem stParseList_map_str (tf : String → Option Json) (ss : List String) :
    stParseList tf (ss.map Json.str) = ss.map Json.str := by
  induction ss with
  | nil => rfl
  | cons s rest ih =>
    simp only [List.map_cons, stParseList, stParse]
    rw [ih]

/-- **C9 amended**: the walk does visit object and array nodes
recursively, and it replaces matching strings *in object-property
position* in place while leaving non-matching strings unchanged — in
particular the round-trip examples hold, with
`"2024-01-01T00:00:00Z"` becoming the datetime 1704067200000 ms after
the epoch, i.e. that instant — and in general every string-valued
property of an object is transformed exactly when the transformer
matches it.  However, strings that are direct elements of an array
stored under an object key are skipped (the counterexample): the last
conjunct shows such arrays come back unchanged whatever they contain. -/
theorem c9_amended :
    (isoProcessJson (.obj [("d", .str "2024-01-01T00:00:00Z")]) =
      .obj [("d", .date (some 1704067200000))] ∧
     dateParse "2024-01-01T00:00:00Z" = some 1704067200000) ∧
    isoProcessJson (.obj [("d", .str "hello")]) = .obj [("d", .str "hello")] ∧
    (∀ fields : List (String × String),
      stProcessJson transformIsoDate (.obj (fields.map fun kv => (kv.1, .str kv.2))) =
        .obj (fields.map fun kv => (kv.1,
          match transformIsoDate kv.2 with
          | some t => t
          | none => .str kv.2))) ∧
    (∀ (k : String) (ss : List String),
      stProcessJson transformIsoDate (.obj [(k, .arr (ss.map Json.str))]) =
        .obj [(k, .arr (ss.map Json.str))]) := by
  refine ⟨⟨rfl, rfl⟩, rfl, ?_, ?_⟩
  · intro fields
    unfold stProcessJson
    simp only [stParse]
    rw [stFields_map_str]
  · intro k ss
    unfold stProcessJson
    simp only [stParse, stFields, stValue]
    rw [stParseList_map_str]

/-! ## C6: authentication strategies and refresh-failure caching -/

/-- A `Bearer` header from a token. -/
def bearerHeader (t : String) : HeaderMap :=
  fun k => if k = "Authorization" then some ("Bearer " ++ t) else none

/-- The common tail of both bearer strategies' `getAuthHeader` once the
awaited token promise resolved: a truthy token yields the header; a
falsy one logs "No bearer token available." and returns `undefined`. -/
def bearerHeaderOf (t : String) : Except Err (Option HeaderMap) :=
  if t ≠ "" then .ok (some (bearerHeader t)) else .ok none

/-- First field with the given key in a JS object literal. -/
def lookupField : List (String × Json) → String → Option Json
  | [], _ => none
  | (k, v) :: rest, key => if k = key then some v else lookupField rest key

/-- `json && json.access_token` followed by the `if (token)` truthiness
check: the access token when the resolved JSON carries a truthy
string-valued one (non-string truthy values are not exercised by the
token endpoints this client targets). -/
def getAccessToken : Json → Option String
  | .obj fields =>
    match lookupField fields "access_token" with
    | some (.str t) => if t ≠ "" then some t else none
    | _ => none
  | _ => none

/-- `OAuthClient.refreshTokenImpl`: POST to the token endpoint through
the client's own axios instance (same `validateStatus: status >= 200`),
wrap the response in `ApiResponse(res, undefined, 0)`; on `success`
extract a truthy `access_token` or throw the no-access-token `Error`;
on a non-2xx response throw the token-fetch `Error` built from the
response. -/
def oauthRefreshTokenImpl (outcome : TransportOutcome) : Except Err String :=
  match httpRequest outcome with
  | .error e => .error e
  | .ok res =>
    if (ApiResponse.mk (some res) none 0).success then
      match getAccessToken res.data with
      | some t => .ok t
      | none => .error .noAccessToken
    else
      .error (.tokenFetchFailed res.status)

/-- The cached token promise of `OAuthClient` (`this.token`) as its
settled outcome; `none` is the initial `undefined`. -/
structure OAuthState where
  token : Option (Except Err String)

/-- `OAuthClient.refreshToken`: start `refreshTokenImpl`, assign the
promise to `this.token` — where it stays even when it rejects — and
await it. -/
def oauthRefreshToken (fetched : Except Err String) (_st : OAuthState) :
    Except Err Unit × OAuthState :=
  (fetched.map fun _ => (), { token := some fetched })

/-- `OAuthClient.getAuthHeader`: if no token promise is cached, refresh
(consuming the next transport outcome of `supply`); then await the
cached promise — with no catch, so a cached rejection is re-raised as is
and stays cached.  Returns the result, the new state, and the index of
the next unconsumed fetch outcome. -/
def oauthGetAuthHeader (supply : Nat → TransportOutcome) (idx : Nat)
    (st : OAuthState) : Except Err (Option HeaderMap) × OAuthState × Nat :=
  match st.token with
  | none =>
    let fetched := oauthRefreshTokenImpl (supply idx)
    match fetched with
    | .error e => (.error e, { token := some fetched }, idx + 1)
    | .ok t => (bearerHeaderOf t, { token := some fetched }, idx + 1)
  | some (.error e) => (.error e, st, idx)
  | some (.ok t) => (bearerHeaderOf t, st, idx)

/-- The cached token promise of `DelegateBearerAuthClient`. -/
structure DBState where
  token : Option (Except Err String)

/-- `DelegateBearerAuthClient.refreshToken`: call the injected resolver,
assign the promise to `this.token`, await it; on rejection log a warning
and re-raise `e` — the rejected promise stays cached. -/
def dbRefreshToken (fetched : Except Err String) (_st : DBState) :
    Except Err Unit × DBState :=
  (fetched.map fun _ => (), { token := some fetched })

/-- `DelegateBearerAuthClient.getAuthHeader`: refresh if nothing is
cached (a rejection there propagates before the `try` block is entered,
leaving the rejected promise cached); then await the cached promise
inside a `try` whose `catch` sets `this.token = undefined` *before*
re-raising. -/
def dbGetAuthHeader (supply : Nat → Except Err String) (idx : Nat)
    (st : DBState) : Except Err (Option HeaderMap) × DBState × Nat :=
  match st.token with
  | none =>
    let fetched := supply idx
    match fetched with
    | .error e => (.error e, { token := some fetched }, idx + 1)
    | .ok t => (bearerHeaderOf t, { token := some fetched }, idx + 1)
  | some (.error e) => (.error e, { token := none }, idx)
  | some (.ok t) => (bearerHeaderOf t, st, idx)

/-- The base64 alphabet. -/
def b64Alphabet : List Char :=
  "ABCDEFGHIJKLMNOPQRSTUVWXYZabcdefghijklmnopqrstuvwxyz0123456789+/".data

/-- Character of a 6-bit group. -/
def b64Char (n : Nat) : Char := b64Alphabet.getD n 'A'

/-- Standard base64 of a byte list, `=`-padded. -/
def encodeBase64Bytes : List Nat → List Char
  | [] => []
  | [b1] => [b64Char (b1 / 4), b64Char (b1 % 4 * 16), '=', '=']
  | [b1, b2] => [b64Char (b1 / 4), b64Char (b1 % 4 * 16 + b2 / 16), b64Char (b2 % 16 * 4), '=']
  | b1 :: b2 :: b3 :: rest =>
    b64Char (b1 / 4) :: b64Char (b1 % 4 * 16 + b2 / 16) ::
      b64Char (b2 % 16 * 4 + b3 / 64) :: b64Char (b3 % 64) :: encodeBase64Bytes rest

/-- `BasicAuthClient.encodeBase64`: `Buffer.from(b, "binary")` keeps the
low byte of each UTF-16 code unit (code points beyond the BMP are not
exercised by credentials). -/
def encodeBase64 (s : String) : String :=
  String.mk (encodeBase64Bytes (s.data.map fun c => c.toNat % 256))

/-- `BasicAuthClient.generateAuthHeader`: base64 of `user:password` as
an HTTP Basic header. -/
def generateAuthHeader (userName password : String) : HeaderMap :=
  fun k => if k = "Authorization"
    then some ("Basic " ++ encodeBase64 (userName ++ ":" ++ password)) else none

/-- `BasicAuthClient.refreshToken`: a no-op — the header is computed at
construction; there is no cached credential to refresh or clear. -/
def basicRefreshToken : Except Err Unit := .ok ()

/-- `BasicAuthClient.getAuthHeader`: the precomputed header. -/
def basicGetAuthHeader (userName password : String) : Except Err (Option HeaderMap) :=
  .ok (some (generateAuthHeader userName password))

/-- A token-endpoint supply whose every outcome is a good 200 carrying a
fresh access token — used to show a fetch would succeed if it happened. -/
def okTokenSupply : Nat → TransportOutcome :=
  fun _ => .resp ⟨200, .obj [("access_token", .str "fresh")]⟩

/-- **C6 counterexample**: `OAuthClient` violates the claim.  A failed
`refreshToken` re-raises with the rejected promise still cached (the
state is `some (error …)`, not cleared), and a subsequent
`getAuthHeader` re-raises that same stale failure while consuming no
fresh fetch (index unchanged) — even against a supply whose fetch would
succeed, as the third conjunct shows from the empty cache. -/
theorem c6_counterexample :
    oauthRefreshToken (oauthRefreshTokenImpl (.exn (.ext 0))) ⟨none⟩ =
      (.error (.ext 0), ⟨some (.error (.ext 0))⟩) ∧
    oauthGetAuthHeader okTokenSupply 0 ⟨some (.error (.ext 0))⟩ =
      (.error (.ext 0), ⟨some (.error (.ext 0))⟩, 0) ∧
    (oauthGetAuthHeader okTokenSupply 0 ⟨none⟩).1 = .ok (some (bearerHeader "fresh")) := by
  exact ⟨rfl, rfl, rfl⟩

/-- **C6 amended**: what the strategies actually do when a fetch fails.
`OAuthClient.refreshToken` stores the rejected promise and re-raises
without clearing, and — `getAuthHeader` having no catch — every
subsequent `getAuthHeader` re-raises the stale failure with cache and
fetch index unchanged; only a direct `refreshToken` call fetches afresh
(it always starts a new fetch).  `DelegateBearerAuthClient.refreshToken`
likewise re-raises with the rejected promise still cached, but its
`getAuthHeader` clears the cache in its catch before re-raising: the
first subsequent `getAuthHeader` still re-raises the stale error
(consuming no fetch) and only the one after that performs a fresh fetch.
`BasicAuthClient.refreshToken` is a no-op with nothing to refresh or
clear. -/
theorem c6_amended :
    (∀ e st, oauthRefreshToken (.error e) st = (.error e, ⟨some (.error e)⟩)) ∧
    (∀ e supply idx, oauthGetAuthHeader supply idx ⟨some (.error e)⟩ =
      (.error e, ⟨some (.error e)⟩, idx)) ∧
    (∀ e st, dbRefreshToken (.error e) st = (.error e, ⟨some (.error e)⟩)) ∧
    (∀ e supply idx, dbGetAuthHeader supply idx ⟨some (.error e)⟩ =
      (.error e, ⟨none⟩, idx)) ∧
    (∀ supply idx, (dbGetAuthHeader supply idx (⟨none⟩ : DBState)).2.2 = idx + 1) ∧
    basicRefreshToken = .ok () := by
  refine ⟨fun e st => rfl, fun e supply idx => rfl, fun e st => rfl,
    fun e supply idx => rfl, ?_, rfl⟩
  intro supply idx
  unfold dbGetAuthHeader
  cases hsi : supply idx <;> simp [hsi]

end HttpclientSpec
